import Mathlib

/-!
Verification of the live-conversation audio subsystem of the
Interactive-Portfolio-website repository, embedded shallowly from
`features/LiveConvo.tsx`.  Byte arrays are `List Nat` (each element < 256),
base64 text is `List Char`, audio samples are exact rationals, browser
exceptions are an `Except` error channel.
-/

namespace LiveConvo

/-- Errors a browser raises on the modelled paths: `invalidChar` is the
`InvalidCharacterError` thrown by `atob` on malformed base64, `rangeError`
is the `RangeError` thrown by an `Int16Array` view over a buffer whose byte
length is not a multiple of 2. -/
inductive JsErr where
  | invalidChar
  | rangeError
deriving DecidableEq, Repr

/-- The standard base64 alphabet used by `btoa` and `atob`. -/
def b64chars : List Char :=
  "ABCDEFGHIJKLMNOPQRSTUVWXYZabcdefghijklmnopqrstuvwxyz0123456789+/".toList

/-- Position of `c` in a list of characters; a list of length `n` yields `n`
when `c` is absent, so on `b64chars` a non-alphabet character yields 64. -/
def idxFrom (c : Char) : List Char → Nat
  | [] => 0
  | d :: rest => if d = c then 0 else idxFrom c rest + 1

/-- Index of a character in the base64 alphabet; 64 when it is not there. -/
def b64index (c : Char) : Nat := idxFrom c b64chars

/-- Character for the six-bit value `n` (defaulting for `n ≥ 64`, never hit). -/
def b64char (n : Nat) : Char := b64chars.getD n 'A'

/-- `encode` from LiveConvo.tsx lines 17-24: raw bytes to base64 text.
The source turns the `Uint8Array` into a binary string with
`String.fromCharCode` and applies `btoa`; since every byte is below 256 that
intermediate string carries exactly the byte values, so the composite is
base64 over the bytes, modelled here directly (3 bytes to 4 characters,
`=`-padded tail groups). -/
def encode : List Nat → List Char
  | b0 :: b1 :: b2 :: rest =>
    b64char (b0 / 4) :: b64char (b0 % 4 * 16 + b1 / 16) ::
      b64char (b1 % 16 * 4 + b2 / 64) :: b64char (b2 % 64) :: encode rest
  | [b0, b1] => [b64char (b0 / 4), b64char (b0 % 4 * 16 + b1 / 16),
      b64char (b1 % 16 * 4), '=']
  | [b0] => [b64char (b0 / 4), b64char (b0 % 4 * 16), '=', '=']
  | [] => []

/-- `decode` from LiveConvo.tsx lines 31-39: base64 text back to raw bytes.
The source applies `atob` and reads the result back with `charCodeAt`; as in
`encode` the binary string is transparent, so the composite is base64
decoding.  `atob` throws `InvalidCharacterError` on input whose length is not
a multiple of 4, on characters outside the alphabet, and on misplaced
padding; those paths are the `error` results. -/
def decode : List Char → Except JsErr (List Nat)
  | [] => .ok []
  | c0 :: c1 :: c2 :: c3 :: rest =>
    let s0 := b64index c0
    let s1 := b64index c1
    if s0 < 64 ∧ s1 < 64 then
      if c2 = '=' then
        if c3 = '=' ∧ rest.isEmpty then .ok [s0 * 4 + s1 / 16]
        else .error .invalidChar
      else
        let s2 := b64index c2
        if s2 < 64 then
          if c3 = '=' then
            if rest.isEmpty then .ok [s0 * 4 + s1 / 16, s1 % 16 * 16 + s2 / 4]
            else .error .invalidChar
          else
            let s3 := b64index c3
            if s3 < 64 then
              match decode rest with
              | .ok tail =>
                .ok ((s0 * 4 + s1 / 16) :: (s1 % 16 * 16 + s2 / 4) ::
                  (s2 % 4 * 64 + s3) :: tail)
              | .error e => .error e
            else .error .invalidChar
        else .error .invalidChar
    else .error .invalidChar
  | _ => .error .invalidChar

lemma b64index_b64char : ∀ n, n < 64 → b64index (b64char n) = n := by decide

lemma b64char_ne_pad : ∀ n, n < 64 → b64char n ≠ '=' := by decide

/-- Base64 round-trip on byte arrays: decoding an encoding recovers the
bytes exactly.  Shared by the transport-coding and codec round-trip
theorems. -/
lemma decode_encode : ∀ bs : List Nat, (∀ b ∈ bs, b < 256) →
    decode (encode bs) = .ok bs := by
  intro bs
  induction bs using encode.induct with
  | case1 b0 b1 b2 rest ih =>
    intro h
    have hb0 : b0 < 256 := h b0 (by simp)
    have hb1 : b1 < 256 := h b1 (by simp)
    have hb2 : b2 < 256 := h b2 (by simp)
    have hrest : ∀ b ∈ rest, b < 256 := fun b hb => h b (by simp [hb])
    have h0 := b64index_b64char (b0 / 4) (by omega)
    have h1 := b64index_b64char (b0 % 4 * 16 + b1 / 16) (by omega)
    have h2 := b64index_b64char (b1 % 16 * 4 + b2 / 64) (by omega)
    have h3 := b64index_b64char (b2 % 64) (by omega)
    have n2 := b64char_ne_pad (b1 % 16 * 4 + b2 / 64) (by omega)
    have n3 := b64char_ne_pad (b2 % 64) (by omega)
    simp only [encode, decode, h0, h1, h2, h3, ih hrest]
    rw [if_pos (by omega), if_neg n2, if_pos (by omega), if_neg n3,
      if_pos (by omega)]
    simp only [Except.ok.injEq, List.cons.injEq]
    refine ⟨by omega, by omega, by omega, trivial⟩
  | case2 b0 b1 =>
    intro h
    have hb0 : b0 < 256 := h b0 (by simp)
    have hb1 : b1 < 256 := h b1 (by simp)
    have h0 := b64index_b64char (b0 / 4) (by omega)
    have h1 := b64index_b64char (b0 % 4 * 16 + b1 / 16) (by omega)
    have h2 := b64index_b64char (b1 % 16 * 4) (by omega)
    have n2 := b64char_ne_pad (b1 % 16 * 4) (by omega)
    simp only [encode, decode, h0, h1, h2]
    rw [if_pos (by omega), if_neg n2, if_pos (by omega)]
    simp only [List.isEmpty_nil, if_true, Except.ok.injEq, List.cons.injEq]
    simp
    omega
  | case3 b0 =>
    intro h
    have hb0 : b0 < 256 := h b0 (by simp)
    have h0 := b64index_b64char (b0 / 4) (by omega)
    have h1 := b64index_b64char (b0 % 4 * 16) (by omega)
    simp only [encode, decode, h0, h1]
    rw [if_pos (by omega)]
    simp
    omega
  | case4 =>
    intro _
    simp only [encode, decode]


/-- Truncation of a rational toward zero, the JS `ToIntegerOrInfinity` step
performed when a number is stored into an integer typed array. -/
def jsTrunc (q : ℚ) : Int := if 0 ≤ q then ⌊q⌋ else -⌊-q⌋

/-- JS `ToInt16`: reduce an integer modulo 2^16 into `[-32768, 32767]`.
Applied to the truncated value on `Int16Array` element assignment. -/
def toInt16 (i : Int) : Int :=
  let m := i % 65536
  if m < 32768 then m else m - 65536

/-- Line 180 of LiveConvo.tsx, `int16[i] = inputData[i] * 32768`: one float
sample quantized to the signed 16-bit element actually stored. -/
def quantizeSample (x : ℚ) : Int := toInt16 (jsTrunc (x * 32768))

/-- Little-endian byte pair of one stored 16-bit element, as exposed by the
`new Uint8Array(int16.buffer)` view on line 183. -/
def bytesOfInt16 (v : Int) : List Nat :=
  let n := (v % 65536).toNat
  [n % 256, n / 256]

/-- Outbound path of `onaudioprocess` (lines 175-184): quantize every input
sample to 16 bits, view the buffer as little-endian bytes, base64-encode. -/
def onaudioprocess (inputData : List ℚ) : List Char :=
  encode ((inputData.map (fun x => bytesOfInt16 (quantizeSample x))).flatten)

/-- Signed 16-bit value read back from two little-endian bytes by the
`new Int16Array(data.buffer)` view on line 51. -/
def int16OfBytes (b0 b1 : Nat) : Int :=
  let n := b0 + 256 * b1
  if n < 32768 then (n : Int) else (n : Int) - 65536

/-- The channel-fill loop of `decodeAudioData` (lines 54-58) at the call
site's `numChannels = 1`: every 16-bit element divided by 32768.0. -/
def samplesOfBytes : List Nat → List ℚ
  | b0 :: b1 :: rest => ((int16OfBytes b0 b1 : ℚ) / 32768) :: samplesOfBytes rest
  | _ => []

/-- `decodeAudioData` (lines 50-61) as invoked on line 223 with
`numChannels = 1`: constructing the `Int16Array` view throws a `RangeError`
when the byte length is odd; otherwise every element is divided by 32768.
The sample-rate argument only affects playback timing, not the samples. -/
def decodeAudioData (data : List Nat) : Except JsErr (List ℚ) :=
  if data.length % 2 = 0 then .ok (samplesOfBytes data) else .error .rangeError

/-- The full codec loop of the audio path: microphone samples through
`onaudioprocess` encoding, then the inbound `decodeAudioData(decode(...))`
of line 223. -/
def audioRoundTrip (xs : List ℚ) : Except JsErr (List ℚ) :=
  match decode (onaudioprocess xs) with
  | .ok bytes => decodeAudioData bytes
  | .error e => .error e

lemma bytesOfInt16_lt (v : Int) : ∀ b ∈ bytesOfInt16 v, b < 256 := by
  intro b hb
  have h0 : 0 ≤ v % 65536 := Int.emod_nonneg v (by norm_num)
  have h1 : v % 65536 < 65536 := Int.emod_lt_of_pos v (by norm_num)
  simp only [bytesOfInt16, List.mem_cons, List.not_mem_nil, or_false] at hb
  rcases hb with hb | hb <;> omega

lemma int16OfBytes_bytesOfInt16 (v : Int) :
    int16OfBytes ((v % 65536).toNat % 256) ((v % 65536).toNat / 256) =
      toInt16 v := by
  simp only [int16OfBytes, toInt16]
  split <;> split <;> omega

lemma toInt16_range (i : Int) : -32768 ≤ toInt16 i ∧ toInt16 i ≤ 32767 := by
  simp only [toInt16]
  split <;> omega

lemma toInt16_eq_self (i : Int) (h1 : -32768 ≤ i) (h2 : i ≤ 32767) :
    toInt16 i = i := by
  simp only [toInt16]
  split <;> omega

lemma samplesOfBytes_append (v : Int) (rest : List Nat) :
    samplesOfBytes (bytesOfInt16 v ++ rest) =
      ((toInt16 v : ℚ) / 32768) :: samplesOfBytes rest := by
  simp only [bytesOfInt16, List.cons_append, List.nil_append, samplesOfBytes,
    int16OfBytes_bytesOfInt16]
  rfl

lemma jsTrunc_close (y : ℚ) : |((jsTrunc y : Int) : ℚ) - y| ≤ 1 := by
  by_cases h : 0 ≤ y
  · simp only [jsTrunc, if_pos h]
    rw [abs_le]
    have ha := Int.floor_le y
    have hb := Int.lt_floor_add_one y
    constructor <;> linarith
  · simp only [jsTrunc, if_neg h]
    rw [abs_le]
    have ha := Int.floor_le (-y)
    have hb := Int.lt_floor_add_one (-y)
    push_cast
    constructor <;> linarith

lemma jsTrunc_range (y : ℚ) (h1 : -32768 ≤ y) (h2 : y < 32768) :
    -32768 ≤ jsTrunc y ∧ jsTrunc y ≤ 32767 := by
  by_cases h : 0 ≤ y
  · simp only [jsTrunc, if_pos h]
    have ha : (0 : Int) ≤ ⌊y⌋ := Int.floor_nonneg.mpr h
    have hb : ⌊y⌋ < 32768 := Int.floor_lt.mpr (by push_cast; linarith)
    omega
  · simp only [jsTrunc, if_neg h]
    have ha : ⌊-y⌋ ≤ ⌊(32768 : ℚ)⌋ := Int.floor_le_floor (by linarith)
    have hc : ⌊(32768 : ℚ)⌋ = 32768 := by norm_num
    have hd : (0 : Int) ≤ ⌊-y⌋ := Int.floor_nonneg.mpr (by linarith)
    omega

lemma quantizeSample_close (x : ℚ) (h1 : -1 ≤ x) (h2 : x < 1) :
    |((quantizeSample x : Int) : ℚ) / 32768 - x| ≤ 1 / 32768 := by
  have hy1 : -32768 ≤ x * 32768 := by linarith
  have hy2 : x * 32768 < 32768 := by linarith
  have hr := jsTrunc_range (x * 32768) hy1 hy2
  have hq : quantizeSample x = jsTrunc (x * 32768) :=
    toInt16_eq_self _ hr.1 hr.2
  have hclose := jsTrunc_close (x * 32768)
  rw [hq]
  have heq : ((jsTrunc (x * 32768) : Int) : ℚ) / 32768 - x =
      (((jsTrunc (x * 32768) : Int) : ℚ) - x * 32768) / 32768 := by ring
  rw [heq, abs_div]
  have h32 : |(32768 : ℚ)| = 32768 := by norm_num
  rw [h32]
  have : (1 : ℚ) / 32768 = 1 / 32768 := rfl
  exact div_le_div_of_nonneg_right hclose (by norm_num) |>.trans_eq (by norm_num)

lemma flatten_bytes_lt (xs : List ℚ) :
    ∀ b ∈ (xs.map (fun x => bytesOfInt16 (quantizeSample x))).flatten, b < 256 := by
  intro b hb
  simp only [List.mem_flatten, List.mem_map] at hb
  obtain ⟨l, ⟨x, hx, rfl⟩, hbl⟩ := hb
  exact bytesOfInt16_lt _ b hbl

lemma flatten_bytes_length (xs : List ℚ) :
    (xs.map (fun x => bytesOfInt16 (quantizeSample x))).flatten.length =
      2 * xs.length := by
  induction xs with
  | nil => rfl
  | cons x rest ih =>
    have h2 : (bytesOfInt16 (quantizeSample x)).length = 2 := rfl
    simp only [List.map_cons, List.flatten_cons, List.length_append, ih,
      List.length_cons, h2]
    omega

lemma samplesOfBytes_flatten (xs : List ℚ) :
    samplesOfBytes ((xs.map (fun x => bytesOfInt16 (quantizeSample x))).flatten) =
      xs.map (fun x => ((quantizeSample x : Int) : ℚ) / 32768) := by
  induction xs with
  | nil => rfl
  | cons x rest ih =>
    have hv := toInt16_range (jsTrunc (x * 32768))
    have hq : toInt16 (quantizeSample x) = quantizeSample x := by
      simp only [quantizeSample]
      exact toInt16_eq_self _ hv.1 hv.2
    simp only [List.map_cons, List.flatten_cons, samplesOfBytes_append, hq, ih]

/-- Claim C1 (confirmed): for every finite array of samples with each value
in `[-1, 1)`, the full encode (float to 16-bit integer to bytes to base64)
followed by the full decode (base64 to bytes to 16-bit integers, each
divided by 32768.0) succeeds, yields an array of the same length, and every
element differs from the corresponding input by at most `1/32768`. -/
theorem codec_round_trip (xs : List ℚ) (h : ∀ x ∈ xs, -1 ≤ x ∧ x < 1) :
    ∃ ys, audioRoundTrip xs = .ok ys ∧ ys.length = xs.length ∧
      List.Forall₂ (fun x y => |y - x| ≤ 1 / 32768) xs ys := by
  have hb := flatten_bytes_lt xs
  have hdec := decode_encode _ hb
  have hlen := flatten_bytes_length xs
  refine ⟨xs.map (fun x => ((quantizeSample x : Int) : ℚ) / 32768), ?_,
    by simp, ?_⟩
  · simp only [audioRoundTrip, onaudioprocess, hdec, decodeAudioData]
    rw [if_pos (by omega), samplesOfBytes_flatten]
  · rw [List.forall₂_map_right_iff, List.forall₂_same]
    intro x hx
    exact quantizeSample_close x (h x hx).1 (h x hx).2

/-- Witness for C1: the round-trip property applied to the concrete sample
array `[1/2, -1/3, 0]`. -/
theorem codec_round_trip_witness :
    (∀ x ∈ ([1/2, -1/3, 0] : List ℚ), -1 ≤ x ∧ x < 1) ∧
      ∃ ys, audioRoundTrip [1/2, -1/3, 0] = .ok ys ∧
        ys.length = ([1/2, -1/3, 0] : List ℚ).length ∧
        List.Forall₂ (fun x y => |y - x| ≤ 1 / 32768) [1/2, -1/3, 0] ys :=
  ⟨by norm_num, codec_round_trip _ (by norm_num)⟩

/-- Claim C10 (confirmed): for every byte array, the base64 decode of the
base64 encode returns the bytes exactly; the byte-level transport pair is a
strict inverse, so the 16-bit quantization is the only lossy step of the
audio path. -/
theorem transport_coding_round_trip (bs : List Nat) (h : ∀ b ∈ bs, b < 256) :
    decode (encode bs) = .ok bs :=
  decode_encode bs h

/-- Witness for C10 at a concrete byte array. -/
theorem transport_coding_round_trip_witness :
    (∀ b ∈ [0, 77, 255, 128], b < 256) ∧
      decode (encode [0, 77, 255, 128]) = .ok [0, 77, 255, 128] :=
  ⟨by decide, transport_coding_round_trip _ (by decide)⟩

/-- Transcript speaker tag, from the `'user' | 'model'` union on line 68. -/
inductive Speaker where
  | user
  | model
deriving DecidableEq, Repr

/-- One entry of the transcript log (line 68 holds speaker and text).  The
`turn` field is a ghost index recording how many `turnComplete` signals had
been processed when the entry was appended; the source stores only speaker
and text and encodes the turn implicitly by grouping. -/
structure TranscriptEntry where
  speaker : Speaker
  text : String
  turn : Nat
deriving DecidableEq, Repr

/-- Externally visible effects of the component: closing the API session,
stopping microphone tracks, disconnecting the two processing nodes, closing
the two audio contexts, stopping or starting a playback source node, and the
two acquisitions performed by `startConversation`. -/
inductive Action where
  | closeSession
  | stopTracks
  | disconnectProcessor
  | disconnectSource
  | closeInputCtx
  | closeOutputCtx
  | stopSource (id : Nat)
  | startSource (id : Nat) (t : ℚ)
  | requestMic
  | connectSession
deriving DecidableEq, Repr

/-- The fields of a `LiveServerMessage` that `onmessage` (lines 196-239)
reads: optional output/input transcription fragments, the turn-complete
flag, the optional base64 audio payload of the first model part, and the
interrupted flag.  `audioData = some []` models a present-but-empty string,
which the source's truthiness test skips just like an absent one. -/
structure ServerMsg where
  outputTranscriptionText : Option String
  inputTranscriptionText : Option String
  turnComplete : Bool
  audioData : Option (List Char)
  interrupted : Bool
deriving DecidableEq, Repr

/-- The component's mutable state: the `isListening`/`status`/`transcripts`
React state, the six resource refs (a held audio context records in its
`Bool` whether its state is `closed`), the two transcription accumulators,
and the playback refs `nextStartTime` and `sources`.  Source nodes are named
by the ghost counter `nextId`; `turnCount` is the ghost turn index feeding
`TranscriptEntry.turn`. -/
@[ext]
structure ConvState where
  isListening : Bool
  status : String
  transcripts : List TranscriptEntry
  sessionOpen : Bool
  mediaStream : Bool
  scriptProcessor : Bool
  mediaStreamSource : Bool
  inputCtx : Option Bool
  outputCtx : Option Bool
  inputAcc : String
  outputAcc : String
  nextStartTime : ℚ
  sources : List Nat
  nextId : Nat
  turnCount : Nat
deriving DecidableEq, Repr

/-- The initial state of the component: `useState`/`useRef` initial values
of lines 66-84. -/
def initConv : ConvState where
  isListening := false
  status := "Idle. Press Start to talk."
  transcripts := []
  sessionOpen := false
  mediaStream := false
  scriptProcessor := false
  mediaStreamSource := false
  inputCtx := none
  outputCtx := none
  inputAcc := ""
  outputAcc := ""
  nextStartTime := 0
  sources := []
  nextId := 0
  turnCount := 0

/-- Line 222: `nextStartTime = max(nextStartTime, outputCtx.currentTime)`,
with `now` the output clock reading at the moment the chunk is handled. -/
def bumpCursor (now : ℚ) (s : ConvState) : ConvState :=
  { s with nextStartTime := max s.nextStartTime now }

/-- Lines 224-230 after a successful decode: create a source node, start it
at the (already bumped) cursor, advance the cursor by the buffer duration,
and add the node to the active set. -/
def scheduleBuffer (dur : ℚ) (s : ConvState) : ConvState × List Action :=
  ({ s with nextStartTime := s.nextStartTime + dur,
            sources := s.sources ++ [s.nextId],
            nextId := s.nextId + 1 },
   [Action.startSource s.nextId s.nextStartTime])

/-- Lines 234-238, the `interrupted` branch: stop every active source node,
clear the set, and reset `nextStartTime` to literal `0` (the source does not
read the output clock here). -/
def interruptPlayback (s : ConvState) : ConvState × List Action :=
  ({ s with sources := [], nextStartTime := 0 },
   s.sources.map Action.stopSource)

/-- The complete audio-enqueue step of `onmessage` for one decoded chunk of
duration `dur`: cursor bump (line 222) followed by scheduling (lines
224-230). -/
def enqueueAudio (now dur : ℚ) (s : ConvState) : ConvState × List Action :=
  scheduleBuffer dur (bumpCursor now s)

/-- The trailing `interrupted` check of `onmessage` (lines 233-239), shared
by the audio and no-audio paths. -/
def finishMessage (s : ConvState) (acts : List Action) (m : ServerMsg) :
    Except JsErr (ConvState × List Action) :=
  if m.interrupted then
    let r := interruptPlayback s
    .ok (r.1, acts ++ r.2)
  else .ok (s, acts)

/-- `onmessage` (lines 196-239): accumulate transcription fragments, emit
transcript entries on `turnComplete` (the `user` entry before the `model`
entry, each only if its accumulator is non-empty, then both accumulators
reset), decode and schedule an audio payload (an uncaught decode exception
aborts the handler here, skipping the interrupted check), and handle the
interrupted flag.  `now` is the output clock reading. -/
def handleMessage (now : ℚ) (s : ConvState) (m : ServerMsg) :
    Except JsErr (ConvState × List Action) :=
  let s1 := match m.outputTranscriptionText with
    | some t => { s with outputAcc := s.outputAcc ++ t }
    | none => s
  let s2 := match m.inputTranscriptionText with
    | some t => { s1 with inputAcc := s1.inputAcc ++ t }
    | none => s1
  let s3 := if m.turnComplete then
      let entries :=
        (if s2.inputAcc ≠ "" then
          [TranscriptEntry.mk Speaker.user s2.inputAcc s2.turnCount] else []) ++
        (if s2.outputAcc ≠ "" then
          [TranscriptEntry.mk Speaker.model s2.outputAcc s2.turnCount] else [])
      { s2 with transcripts := s2.transcripts ++ entries,
                inputAcc := "", outputAcc := "",
                turnCount := s2.turnCount + 1 }
    else s2
  match m.audioData with
  | some b64 =>
    if b64.isEmpty then finishMessage s3 [] m
    else
      let s4 := bumpCursor now s3
      match decode b64 with
      | .error e => .error e
      | .ok bytes =>
        match decodeAudioData bytes with
        | .error e => .error e
        | .ok samples =>
          let r := scheduleBuffer ((samples.length : ℚ) / 24000) s4
          finishMessage r.1 r.2 m
  | none => finishMessage s3 [] m

/-- Sequential delivery of inbound messages, each one invoking `onmessage`;
the emitted actions are side effects and are dropped here. -/
def processMsgs (now : ℚ) (s : ConvState) : List ServerMsg → Except JsErr ConvState
  | [] => .ok s
  | m :: rest =>
    match handleMessage now s m with
    | .ok r => processMsgs now r.1 rest
    | .error e => .error e

/-- Start times computed for a sequence of audio chunks, each given as the
pair (output clock reading at its enqueue, buffer duration); the start time
of a chunk is the bumped cursor at which `sourceNode.start` is called. -/
def enqueueSeq (s : ConvState) : List (ℚ × ℚ) → List ℚ
  | [] => []
  | (now, dur) :: rest =>
    max s.nextStartTime now :: enqueueSeq (enqueueAudio now dur s).1 rest

/-- `startConversation` (lines 134-155): a no-op while already listening;
otherwise flips the flag, resets status and transcripts, then (modelling
the `try`) either acquires the microphone, the two audio contexts and the
session, or on denied microphone access falls back to not listening. -/
def startConversation (micGranted : Bool) (s : ConvState) :
    ConvState × List Action :=
  if s.isListening then (s, [])
  else
    let s1 := { s with isListening := true, status := "Connecting...",
                       transcripts := [] }
    if micGranted then
      ({ s1 with mediaStream := true, inputCtx := some false,
                 outputCtx := some false, sessionOpen := true },
       [Action.requestMic, Action.connectSession])
    else
      ({ s1 with isListening := false,
                 status := "Failed to get microphone access." },
       [Action.requestMic])

/-- `stopConversation` (lines 92-128): each held resource is released and
its ref cleared, guarded by a null check; the audio contexts additionally
check their `closed` flag (so a held context recorded as closed is skipped
and its ref kept, exactly as in the source); within the output-context
branch every active source node is stopped and the set cleared. -/
def stopConversation (s : ConvState) : ConvState × List Action :=
  let p1 : ConvState × List Action :=
    if s.sessionOpen then ({ s with sessionOpen := false },
      [Action.closeSession]) else (s, [])
  let p2 := if p1.1.mediaStream then ({ p1.1 with mediaStream := false },
      p1.2 ++ [Action.stopTracks]) else p1
  let p3 := if p2.1.scriptProcessor then
      ({ p2.1 with scriptProcessor := false },
        p2.2 ++ [Action.disconnectProcessor]) else p2
  let p4 := if p3.1.mediaStreamSource then
      ({ p3.1 with mediaStreamSource := false },
        p3.2 ++ [Action.disconnectSource]) else p3
  let p5 := match p4.1.inputCtx with
    | some false => ({ p4.1 with inputCtx := none },
        p4.2 ++ [Action.closeInputCtx])
    | _ => p4
  let p6 := match p5.1.outputCtx with
    | some false => ({ p5.1 with sources := [], outputCtx := none },
        p5.2 ++ p5.1.sources.map Action.stopSource ++ [Action.closeOutputCtx])
    | _ => p5
  ({ p6.1 with isListening := false, status := "Conversation ended." }, p6.2)

/-- `onerror` (lines 241-245): set the error status, then run the full
teardown `stopConversation`. -/
def onError (msg : String) (s : ConvState) : ConvState × List Action :=
  stopConversation
    { s with status := "Error: " ++ msg ++ ". Please try again." }

/-- `onclose` (lines 246-249): only sets the status text and clears the
listening flag; no resource is touched. -/
def onClose (s : ConvState) : ConvState × List Action :=
  ({ s with status := "Connection closed.", isListening := false }, [])

lemma enqueueSeq_length (chunks : List (ℚ × ℚ)) :
    ∀ s : ConvState, (enqueueSeq s chunks).length = chunks.length := by
  induction chunks with
  | nil => intro s; rfl
  | cons c rest ih =>
    obtain ⟨n1, d1⟩ := c
    intro s
    simp only [enqueueSeq, List.length_cons, ih]

lemma enqueueSeq_adjacent (chunks : List (ℚ × ℚ)) :
    ∀ (s : ConvState) (i : Nat), i + 1 < chunks.length →
      (enqueueSeq s chunks).getD (i + 1) 0 =
        max ((enqueueSeq s chunks).getD i 0 + (chunks.getD i (0, 0)).2)
          ((chunks.getD (i + 1) (0, 0)).1) := by
  induction chunks with
  | nil => intro s i h; simp at h
  | cons c rest ih =>
    obtain ⟨n1, d1⟩ := c
    intro s i h
    cases i with
    | zero =>
      cases rest with
      | nil => simp at h
      | cons c1 rest2 =>
        obtain ⟨n2, d2⟩ := c1
        simp [enqueueSeq, enqueueAudio, scheduleBuffer, bumpCursor]
    | succ i =>
      simp only [enqueueSeq, List.getD_cons_succ]
      exact ih _ i (by simpa using h)

/-- Claim C2 counterexample: two chunks of duration 1, the first enqueued at
output-clock time 0 and the second at time 5 (a monotone clock, as when
network delivery stalls past the end of the first buffer).  The computed
start times are `[0, 5]`, so `start(2) ≠ start(1) + d(1) = 1`, refuting the
claimed unconditional `start(i+1) = start(i) + d(i)`. -/
theorem gapless_claim_counterexample :
    enqueueSeq initConv [(0, 1), (5, 1)] = [0, 5] ∧
      (enqueueSeq initConv [(0, 1), (5, 1)]).getD 1 0 ≠
        (enqueueSeq initConv [(0, 1), (5, 1)]).getD 0 0 + 1 := by
  have h1 : enqueueSeq initConv [(0, 1), (5, 1)] = [0, 5] := by
    norm_num [enqueueSeq, enqueueAudio, scheduleBuffer, bumpCursor, initConv,
      max_def]
  refine ⟨h1, ?_⟩
  rw [h1]
  norm_num

/-- Claim C2 (corrected): for chunks given as (clock reading at enqueue,
duration) pairs, each computed start time obeys
`start(i+1) = max(start(i) + d(i), now(i+1))` — so `start(i+1) = start(i) + d(i)`
exactly when the clock has not passed the cursor — the first start time is
at least the clock reading of the first enqueue, and (durations being
non-negative) no enqueue ever decreases the `nextStartTime` cursor. -/
theorem gapless_start_times (s : ConvState) (chunks : List (ℚ × ℚ))
    (hdur : ∀ c ∈ chunks, 0 ≤ c.2) :
    (enqueueSeq s chunks).length = chunks.length ∧
    (∀ i, i + 1 < chunks.length →
      (enqueueSeq s chunks).getD (i + 1) 0 =
        max ((enqueueSeq s chunks).getD i 0 + (chunks.getD i (0, 0)).2)
          ((chunks.getD (i + 1) (0, 0)).1)) ∧
    (0 < chunks.length →
      (chunks.getD 0 (0, 0)).1 ≤ (enqueueSeq s chunks).getD 0 0) ∧
    (∀ c ∈ chunks, ∀ t : ConvState,
      t.nextStartTime ≤ (enqueueAudio c.1 c.2 t).1.nextStartTime) := by
  refine ⟨enqueueSeq_length chunks s, enqueueSeq_adjacent chunks s, ?_, ?_⟩
  · intro hpos
    cases chunks with
    | nil => simp at hpos
    | cons c rest =>
      obtain ⟨n1, d1⟩ := c
      simp [enqueueSeq]
  · intro c hc t
    have hd := hdur c hc
    have hm := le_max_left t.nextStartTime c.1
    simp only [enqueueAudio, scheduleBuffer, bumpCursor]
    linarith

/-- Witness for the amended C2 on a concrete chunk sequence. -/
theorem gapless_start_times_witness :
    (∀ c ∈ [((0 : ℚ), (1 : ℚ)), (5, 1)], 0 ≤ c.2) ∧
      ((enqueueSeq initConv [(0, 1), (5, 1)]).length =
          ([((0 : ℚ), (1 : ℚ)), (5, 1)]).length ∧
      (∀ i, i + 1 < ([((0 : ℚ), (1 : ℚ)), (5, 1)]).length →
        (enqueueSeq initConv [(0, 1), (5, 1)]).getD (i + 1) 0 =
          max ((enqueueSeq initConv [(0, 1), (5, 1)]).getD i 0 +
              (([((0 : ℚ), (1 : ℚ)), (5, 1)]).getD i (0, 0)).2)
            ((([((0 : ℚ), (1 : ℚ)), (5, 1)]).getD (i + 1) (0, 0)).1)) ∧
      (0 < ([((0 : ℚ), (1 : ℚ)), (5, 1)]).length →
        (([((0 : ℚ), (1 : ℚ)), (5, 1)]).getD 0 (0, 0)).1 ≤
          (enqueueSeq initConv [(0, 1), (5, 1)]).getD 0 0) ∧
      (∀ c ∈ [((0 : ℚ), (1 : ℚ)), (5, 1)], ∀ t : ConvState,
        t.nextStartTime ≤ (enqueueAudio c.1 c.2 t).1.nextStartTime)) :=
  ⟨by norm_num, gapless_start_times initConv [(0, 1), (5, 1)] (by norm_num)⟩

/-- State with one active playback source (ghost id 7) and an advanced
cursor, as when a buffer is playing. -/
def interruptState : ConvState :=
  { initConv with sources := [7], nextStartTime := 2 }

/-- An inbound message carrying only the `interrupted` flag. -/
def interruptedMsg : ServerMsg :=
  { outputTranscriptionText := none, inputTranscriptionText := none,
    turnComplete := false, audioData := none, interrupted := true }

/-- Claim C3 (code bug): handling the remote `Interrupted` signal does stop
every active source and clear the set, but resets `nextStartTime` to the
literal `0` instead of the output clock reading — here the clock reads 5,
yet the stored cursor is 0; line 238 never consults `currentTime`. -/
theorem interrupt_resets_to_zero :
    handleMessage 5 interruptState interruptedMsg =
      .ok ({ interruptState with sources := [], nextStartTime := 0 },
        [Action.stopSource 7]) ∧
    (0 : ℚ) ≠ 5 := by
  constructor
  · rfl
  · norm_num

/-- Claim C4 (confirmed): after an interrupt, the next enqueue starts its
buffer exactly at the output clock reading of that call (the zeroed cursor
loses against `max` with any non-negative clock), not at the stale cursor. -/
theorem interrupt_resets_cursor_for_next_enqueue (s : ConvState)
    (now dur : ℚ) (h : 0 ≤ now) :
    (enqueueAudio now dur (interruptPlayback s).1).2 =
      [Action.startSource s.nextId now] ∧
    (enqueueAudio now dur (interruptPlayback s).1).1.nextStartTime =
      now + dur := by
  simp [enqueueAudio, scheduleBuffer, bumpCursor, interruptPlayback,
    max_eq_right h]

/-- Witness for C4 at a concrete state and clock reading. -/
theorem interrupt_resets_cursor_witness :
    (0 : ℚ) ≤ 2 ∧
      ((enqueueAudio 2 3 (interruptPlayback interruptState).1).2 =
        [Action.startSource interruptState.nextId 2] ∧
      (enqueueAudio 2 3 (interruptPlayback interruptState).1).1.nextStartTime =
        2 + 3) :=
  ⟨by norm_num,
    interrupt_resets_cursor_for_next_enqueue interruptState 2 3 (by norm_num)⟩

/-- A message whose audio payload is the valid base64 text of a single byte
(`"AA=="` decodes to `[0]`), an odd byte length. -/
def oddAudioMsg : ServerMsg :=
  { outputTranscriptionText := none, inputTranscriptionText := none,
    turnComplete := false, audioData := some ("AA==".toList),
    interrupted := false }

/-- Claim C5 counterexample: delivering a chunk whose byte length is odd
makes the message handler end in an error — the `RangeError` of the
`Int16Array` view propagates out of `onmessage` (there is no try/catch and
no `MalformedAudioData` absorption in lines 196-239). -/
theorem malformed_chunk_counterexample :
    (handleMessage 0 initConv oddAudioMsg).isOk = false := by
  rfl

/-- Claim C5 (corrected): at the call site (`numChannels = 1`), decoding an
inbound chunk fails exactly when its byte length is not a multiple of 2,
but the failure is NOT absorbed locally: for every state and clock reading,
the handler invoked on an odd-length chunk propagates the error instead of
dropping the chunk silently. -/
theorem malformed_chunk_behavior :
    (∀ bs : List Nat, (decodeAudioData bs).isOk = true ↔ bs.length % 2 = 0) ∧
    (∀ (now : ℚ) (s : ConvState),
      handleMessage now s oddAudioMsg = .error .rangeError) := by
  constructor
  · intro bs
    by_cases h : bs.length % 2 = 0
    · simp [decodeAudioData, h, Except.isOk, Except.toBool]
    · simp [decodeAudioData, h, Except.isOk, Except.toBool]
  · intro now s
    rfl

/-- A message carrying one user-speech transcription fragment. -/
def userMsg (t : String) : ServerMsg :=
  { outputTranscriptionText := none, inputTranscriptionText := some t,
    turnComplete := false, audioData := none, interrupted := false }

/-- A message carrying one model-speech transcription fragment. -/
def modelMsg (t : String) : ServerMsg :=
  { outputTranscriptionText := some t, inputTranscriptionText := none,
    turnComplete := false, audioData := none, interrupted := false }

/-- A message carrying only the turn-complete flag. -/
def turnCompleteMsg : ServerMsg :=
  { outputTranscriptionText := none, inputTranscriptionText := none,
    turnComplete := true, audioData := none, interrupted := false }

/-- Claim C6 (confirmed): the fragments `User "a"`, `User "b"`, `Model "c"`
in any physical interleaving that keeps each speaker's own order, followed
by `TurnComplete`, extend the transcript by exactly
`[{user, "ab", turn 0}, {model, "c", turn 0}]` in that order and clear both
accumulators; and on any state whose accumulators are both empty, a
turn-complete produces no entry at all. -/
theorem transcript_turn_aggregation (seq : List ServerMsg)
    (h : seq = [userMsg "a", userMsg "b", modelMsg "c"] ∨
      seq = [userMsg "a", modelMsg "c", userMsg "b"] ∨
      seq = [modelMsg "c", userMsg "a", userMsg "b"]) :
    processMsgs 0 initConv (seq ++ [turnCompleteMsg]) =
      .ok { initConv with
              transcripts := [TranscriptEntry.mk Speaker.user "ab" 0,
                TranscriptEntry.mk Speaker.model "c" 0],
              turnCount := 1 } ∧
    (∀ (now : ℚ) (s : ConvState), s.inputAcc = "" → s.outputAcc = "" →
      handleMessage now s turnCompleteMsg =
        .ok ({ s with turnCount := s.turnCount + 1 }, [])) := by
  constructor
  · rcases h with h | h | h <;> subst h <;> rfl
  · intro now s h1 h2
    cases s
    simp only at h1 h2
    subst h1
    subst h2
    simp [handleMessage, turnCompleteMsg, finishMessage]

/-- Witness for C6 at the first interleaving. -/
theorem transcript_turn_aggregation_witness :
    ([userMsg "a", userMsg "b", modelMsg "c"] =
        [userMsg "a", userMsg "b", modelMsg "c"] ∨
      [userMsg "a", userMsg "b", modelMsg "c"] =
        [userMsg "a", modelMsg "c", userMsg "b"] ∨
      [userMsg "a", userMsg "b", modelMsg "c"] =
        [modelMsg "c", userMsg "a", userMsg "b"]) ∧
    (processMsgs 0 initConv
        ([userMsg "a", userMsg "b", modelMsg "c"] ++ [turnCompleteMsg]) =
      .ok { initConv with
              transcripts := [TranscriptEntry.mk Speaker.user "ab" 0,
                TranscriptEntry.mk Speaker.model "c" 0],
              turnCount := 1 } ∧
    (∀ (now : ℚ) (s : ConvState), s.inputAcc = "" → s.outputAcc = "" →
      handleMessage now s turnCompleteMsg =
        .ok ({ s with turnCount := s.turnCount + 1 }, []))) :=
  ⟨Or.inl rfl, transcript_turn_aggregation _ (Or.inl rfl)⟩

/-- Claim C7 (confirmed): calling `startConversation` while already
listening returns immediately (line 135): the state is unchanged and no
action — no microphone acquisition, no second connection — is emitted,
whether or not the microphone would be granted. -/
theorem single_active_session (g : Bool) (s : ConvState)
    (h : s.isListening = true) :
    startConversation g s = (s, []) := by
  simp [startConversation, h]

/-- A state in which a session is active and listening. -/
def listeningState : ConvState := { initConv with isListening := true }

/-- Witness for C7: a second start on a listening state is a no-op. -/
theorem single_active_session_witness :
    listeningState.isListening = true ∧
      startConversation true listeningState = (listeningState, []) :=
  ⟨rfl, single_active_session true listeningState rfl⟩

/-- Claim C8 (confirmed): provided no held audio context is recorded as
already closed (true of every state the component reaches: contexts are
closed only by `stopConversation` itself, which also clears the ref), one
`stopConversation` clears every resource, and a second call emits no action
at all — nothing is closed, stopped or disconnected twice — and leaves the
state exactly as the first call left it. -/
theorem idempotent_stop (s : ConvState)
    (hin : s.inputCtx ≠ some true) (hout : s.outputCtx ≠ some true)
    (hsrc : s.outputCtx = none → s.sources = []) :
    ((stopConversation s).1.sessionOpen = false ∧
     (stopConversation s).1.mediaStream = false ∧
     (stopConversation s).1.scriptProcessor = false ∧
     (stopConversation s).1.mediaStreamSource = false ∧
     (stopConversation s).1.inputCtx = none ∧
     (stopConversation s).1.outputCtx = none ∧
     (stopConversation s).1.sources = []) ∧
    stopConversation (stopConversation s).1 = ((stopConversation s).1, []) := by
  have hic : s.inputCtx = none ∨ s.inputCtx = some false := by
    rcases h : s.inputCtx with _ | b
    · exact Or.inl rfl
    · cases b
      · exact Or.inr rfl
      · exact absurd h hin
  have hoc : s.outputCtx = none ∨ s.outputCtx = some false := by
    rcases h : s.outputCtx with _ | b
    · exact Or.inl rfl
    · cases b
      · exact Or.inr rfl
      · exact absurd h hout
  rcases hic with hic | hic <;> rcases hoc with hoc | hoc <;>
    cases hso : s.sessionOpen <;> cases hms : s.mediaStream <;>
    cases hsp : s.scriptProcessor <;> cases hmss : s.mediaStreamSource <;>
    simp [stopConversation, hic, hoc, hso, hms, hsp, hmss, hsrc]

/-- A state holding every resource, as after a successful start with a live
session and two scheduled buffers. -/
def fullState : ConvState :=
  { initConv with
      isListening := true, sessionOpen := true, mediaStream := true,
      scriptProcessor := true, mediaStreamSource := true,
      inputCtx := some false, outputCtx := some false, sources := [1, 2] }

/-- Witness for C8 at a state holding every resource. -/
theorem idempotent_stop_witness :
    (fullState.inputCtx ≠ some true ∧ fullState.outputCtx ≠ some true ∧
      (fullState.outputCtx = none → fullState.sources = [])) ∧
    (((stopConversation fullState).1.sessionOpen = false ∧
      (stopConversation fullState).1.mediaStream = false ∧
      (stopConversation fullState).1.scriptProcessor = false ∧
      (stopConversation fullState).1.mediaStreamSource = false ∧
      (stopConversation fullState).1.inputCtx = none ∧
      (stopConversation fullState).1.outputCtx = none ∧
      (stopConversation fullState).1.sources = []) ∧
    stopConversation (stopConversation fullState).1 =
      ((stopConversation fullState).1, [])) :=
  ⟨⟨by decide, by decide, by decide⟩,
    idempotent_stop fullState (by decide) (by decide) (by decide)⟩

/-- A state holding every resource with one playing buffer (ghost id 3). -/
def activeState : ConvState :=
  { initConv with
      isListening := true, sessionOpen := true, mediaStream := true,
      scriptProcessor := true, mediaStreamSource := true,
      inputCtx := some false, outputCtx := some false, sources := [3] }

/-- Claim C9 (code bug): of the three termination routes, local stop and
the transport-error handler run the teardown (the microphone is released),
but the remotely initiated close (`onclose`, lines 246-249) only sets the
status text and clears the listening flag: it emits no release action and
leaves the microphone stream, the session ref, both audio contexts and the
scheduled buffer still held. -/
theorem remote_close_releases_nothing :
    (onClose activeState).2 = [] ∧
    (onClose activeState).1.mediaStream = true ∧
    (onClose activeState).1.sessionOpen = true ∧
    (onClose activeState).1.inputCtx = some false ∧
    (onClose activeState).1.outputCtx = some false ∧
    (onClose activeState).1.sources = [3] ∧
    (stopConversation activeState).1.mediaStream = false ∧
    (onError "boom" activeState).1.mediaStream = false := by
  refine ⟨rfl, rfl, rfl, rfl, rfl, rfl, rfl, rfl⟩
